import Mathlib

/-!
  # RGB_Linear_3D: GLB transcode-and-repack pipeline, shallow embedding

  Embedding of src/services/gltfProcessor.ts, which holds two pipeline
  variants: a manual repack variant (parse, transcode textures, two-pass
  relayout of the buffer views, byte-level GLB assembly) and an
  exporter-based variant (gamma-correct diffuse maps, re-export through an
  external exporter). Byte buffers are modelled as List Nat, 32-bit
  machine writes as Nat with explicit mod 2 ^ 32, IEEE double arithmetic
  in the gamma functions as exact real arithmetic, and fallible external
  calls (image decode plus PNG encode) as Option.
-/

namespace RGBLinear

/-- Padding that advances a cursor to the next 4-byte boundary; the exact
formula used by the repack variant at lines 169, 188, 212 and 215. -/
def pad4 (n : Nat) : Nat := (4 - n % 4) % 4

/-- Models ArrayBuffer.slice(off, off + len): the len bytes starting at
position off, clamped to the buffer as the JavaScript method clamps. -/
def listSlice (l : List Nat) (off len : Nat) : List Nat := (l.drop off).take len

/-- Models DataView.setUint32 with littleEndian true: four bytes, least
significant first, the value reduced mod 2 ^ 32. -/
def u32le (n : Nat) : List Nat :=
  [n % 256, n / 256 % 256, n / 65536 % 256, n / 16777216 % 256]

/-- Little-endian 32-bit read of the first four bytes of a list. -/
def decodeU32le (l : List Nat) : Nat :=
  l.getD 0 0 + 256 * l.getD 1 0 + 65536 * l.getD 2 0 + 16777216 * l.getD 3 0

/-- Per-texture entry of the textureSizeChanges report (repack variant,
lines 91, 119 and 123; the name field is omitted). -/
structure ReportEntry where
  originalSize : Nat
  newSize : Nat
  modified : Bool
deriving DecidableEq

/-- Models lines 110 to 124 of the repack variant for one texture.
encodeResult is the outcome of the external decode-draw-encode call
processTexture: some bytes on success, none when it throws. The first
component is the value stored into newImageBuffers for the image of this
texture (none when the catch branch leaves it unset); the second is the
report entry. When the manifest mime type was image/png and the fresh
encoding is strictly larger, the original bytes are kept and the entry is
marked unmodified; on failure the entry falls back to the original size. -/
def processOneTexture (originalBuffer : List Nat) (mimeIsPng : Bool)
    (encodeResult : Option (List Nat)) : Option (List Nat) × ReportEntry :=
  match encodeResult with
  | some newBuffer =>
      if mimeIsPng ∧ newBuffer.length > originalBuffer.length then
        (some originalBuffer, ⟨originalBuffer.length, originalBuffer.length, false⟩)
      else
        (some newBuffer, ⟨originalBuffer.length, newBuffer.length, true⟩)
  | none => (none, ⟨originalBuffer.length, originalBuffer.length, false⟩)

/-- Inputs of one texture task of the repack variant: the original byte
range of its image, whether the manifest declared mime type image/png, and
the outcome of the external transcode call. -/
structure TextureInput where
  originalBuffer : List Nat
  mimeIsPng : Bool
  encodeResult : Option (List Nat)

/-- All texture tasks (lines 97 to 127): independent, one result per
texture; no task outcome removes or aborts another. -/
def runTextures (ts : List TextureInput) : List (Option (List Nat) × ReportEntry) :=
  ts.map fun t => processOneTexture t.originalBuffer t.mimeIsPng t.encodeResult

/-- A manifest buffer view: byte offset and byte length into the single
binary payload. -/
structure BufferView where
  byteOffset : Nat
  byteLength : Nat
deriving DecidableEq

/-- Data selection of pass 1 (lines 160 to 166): an image view whose image
has a stored replacement buffer takes the replacement; every other view
takes its original byte range sliced from the old binary payload. -/
def viewData (oldBin : List Nat) (bv : BufferView) (isImage : Bool)
    (stored : Option (List Nat)) : List Nat :=
  match isImage, stored with
  | true, some d => d
  | _, _ => listSlice oldBin bv.byteOffset bv.byteLength

/-- Pass 1 (lines 156 to 178): walk the views in their sorted order with a
running cursor; pad the cursor to a 4-byte boundary, record the padded
cursor as the new byteOffset and the data length as the new byteLength,
then advance by the data length. The input list holds the per-view data
lengths in the sorted order. -/
def layoutPass1 : List Nat → Nat → List (Nat × Nat)
  | [], _ => []
  | len :: rest, cursor =>
      (cursor + pad4 cursor, len) :: layoutPass1 rest (cursor + pad4 cursor + len)

/-- Final value of the pass 1 cursor: the computed newBinSize (line 181). -/
def pass1FinalSize : List Nat → Nat → Nat
  | [], cursor => cursor
  | len :: rest, cursor => pass1FinalSize rest (cursor + pad4 cursor + len)

/-- Pass 1 paired with the source data itself (meta.sourceData, line 167):
for each view, its new byteOffset together with the bytes pass 2 copies
there. -/
def planWithData : List (List Nat) → Nat → List (Nat × List Nat)
  | [], _ => []
  | d :: rest, cursor =>
      (cursor + pad4 cursor, d) :: planWithData rest (cursor + pad4 cursor + d.length)

/-- Models Uint8Array.set(d, off) on a fixed buffer: overwrite d.length
bytes starting at off, leaving the rest of the buffer alone. -/
def writeBytes (buf : List Nat) (off : Nat) (d : List Nat) : List Nat :=
  buf.take off ++ d ++ buf.drop (off + d.length)

/-- Pass 2 (lines 183 to 197): the same cursor walk as pass 1 over the
same data, copying each buffer at its padded offset into the preallocated
zero-filled payload. -/
def assemblePass2 : List (List Nat) → Nat → List Nat → List Nat
  | [], _, buf => buf
  | d :: rest, cursor, buf =>
      assemblePass2 rest (cursor + pad4 cursor + d.length)
        (writeBytes buf (cursor + pad4 cursor) d)

/-- Final value of the pass 2 cursor: currentOffset after the copy loop
(line 196). -/
def pass2FinalCursor : List Nat → Nat → Nat
  | [], cursor => cursor
  | len :: rest, cursor => pass2FinalCursor rest (cursor + pad4 cursor + len)

/-- Log severities of the LogEntry type (src/unnamed/part_000). -/
inductive Sev where
  | info
  | success
  | warning
  | error
deriving DecidableEq

/-- Lines 199 to 203: the post-assembly size check only chooses the
severity of one log entry; the mismatch branch logs an error and falls
through without throwing. -/
def assemblySizeCheckSeverity (newBinSize currentOffset : Nat) : Sev :=
  if currentOffset ≠ newBinSize then Sev.error else Sev.info

/-- Total container length as computed at line 218:
12 + (8 + paddedJsonLength) + (8 + paddedBinLength). -/
def glbTotalLength (jsonBytes binBytes : List Nat) : Nat :=
  12 + (8 + (jsonBytes.length + pad4 jsonBytes.length))
     + (8 + (binBytes.length + pad4 binBytes.length))

/-- GLB container assembly, lines 205 to 238: the 12-byte header (magic,
version 2, total length), then the JSON chunk header and payload padded
with 0x20, then the BIN chunk header and payload padded with 0x00, every
header integer written little-endian. The sequential DataView writes at
advancing offsets fill the buffer exactly, which concatenation renders. -/
def buildGlb (jsonBytes binBytes : List Nat) : List Nat :=
  u32le 0x46546C67 ++ u32le 2 ++ u32le (glbTotalLength jsonBytes binBytes) ++
  u32le (jsonBytes.length + pad4 jsonBytes.length) ++ u32le 0x4E4F534A ++
  jsonBytes ++ List.replicate (pad4 jsonBytes.length) 0x20 ++
  u32le (binBytes.length + pad4 binBytes.length) ++ u32le 0x004E4942 ++
  binBytes ++ List.replicate (pad4 binBytes.length) 0x00

/-- Lines 199 to 254 taken together: after the size check the pipeline
unconditionally builds and returns the container blob; the check outcome
only selects the severity of the log entry. -/
def emitAfterCheck (newBinSize currentOffset : Nat) (jsonBytes binBytes : List Nat) :
    Sev × Option (List Nat) :=
  (assemblySizeCheckSeverity newBinSize currentOffset,
   some (buildGlb jsonBytes binBytes))

/-- An RGBA8 pixel of the ImageData byte array. -/
structure Pixel where
  r : Nat
  g : Nat
  b : Nat
  a : Nat
deriving DecidableEq

/-- Lines 40 to 50 of the repack variant (and the loop at lines 357 to 362
of the exporter variant): when the texture is diffuse, the per-channel
byte table is applied to the R, G and B channels of every pixel with the
alpha channel left alone; otherwise the pixel data is not touched. The
table argument is the per-run lookup table of whichever gamma direction
the variant uses. -/
def gammaCorrectStep (isDiffuse : Bool) (lut : Nat → Nat) (pixels : List Pixel) :
    List Pixel :=
  if isDiffuse then pixels.map fun p => ⟨lut p.r, lut p.g, lut p.b, p.a⟩ else pixels

/-- Lines 19 and 42 to 43 of the repack variant: the linearize table entry
srgbToLinear[i] = Math.floor(Math.pow(i / 255, 2.2) * 255), IEEE doubles
modelled as exact reals. -/
noncomputable def srgbToLinearTable (i : Nat) : Int :=
  ⌊((i : ℝ) / 255) ^ (2.2 : ℝ) * 255⌋

/-- Lines 309 to 312 with 357 to 361 of the exporter variant: the value
Math.pow(i / 255, 1 / 2.2) * 255 is assigned into a Uint8ClampedArray,
which stores the nearest integer; modelled as round over exact reals. -/
noncomputable def linearToSrgbByte (i : Nat) : Int :=
  round (((i : ℝ) / 255) ^ ((1 : ℝ) / 2.2) * 255)

/-- One material as seen by the diffuse collection loop of the exporter
variant (lines 513 to 531): whether it is one of the four material classes
that carry a diffuse map slot, and the identity of the texture in that
slot, if any. -/
structure ExpMaterial where
  diffuseCapable : Bool
  map : Option Nat
deriving DecidableEq

/-- Lines 513 to 531: collect the map slot of every capable material. -/
def collectDiffuseMaps (materials : List ExpMaterial) : List Nat :=
  materials.filterMap fun m => if m.diffuseCapable then m.map else none

/-- Lines 533 to 582 of the exporter variant: when no diffuse map was
collected the original file bytes become the output blob untouched;
otherwise the externally re-exported bytes are returned. -/
def exporterOutput (fileBuffer : List Nat) (materials : List ExpMaterial)
    (exported : List Nat) : List Nat :=
  if collectDiffuseMaps materials = [] then fileBuffer else exported

/-- Modelled from the spec: the named optimization levels of the pipeline
variant whose processor source is not under src/ (src/unnamed/part_001
imports processGltf with this configuration, and the type itself is also
missing from the types file). -/
inductive OptimizationLevel where
  | none
  | balanced
  | aggressive
deriving DecidableEq

/-- Modelled from the spec: balanced and aggressive carry a max-dimension
threshold of 1024px; the lossless default carries no threshold. -/
def maxDimTarget : OptimizationLevel → Option Nat
  | OptimizationLevel.none => Option.none
  | OptimizationLevel.balanced => some 1024
  | OptimizationLevel.aggressive => some 1024

/-- Modelled from the spec: the resize step of the missing variant. When a
target is configured and max(width, height) exceeds it, both dimensions
are scaled by target / max(width, height), each floored and clamped to at
least 1 pixel (the floor-and-clamp shape follows the surviving resize code
at lines 337 to 340); otherwise the dimensions are kept. Exact rational
arithmetic stands in for IEEE doubles. -/
def resizeDims (level : OptimizationLevel) (w h : Nat) : Nat × Nat :=
  match maxDimTarget level with
  | Option.none => (w, h)
  | some target =>
      if max w h > target then
        (max 1 (⌊(w : ℚ) * ((target : ℚ) / (max w h : ℚ))⌋.toNat),
         max 1 (⌊(h : ℚ) * ((target : ℚ) / (max w h : ℚ))⌋.toNat))
      else (w, h)

theorem pad4_add_aligned (c : Nat) : (c + pad4 c) % 4 = 0 := by
  unfold pad4; omega

/-- C1: every new byteOffset that pass 1 records into the output manifest
is a multiple of 4, for every view sequence (hence every input container
and every choice of replaced payloads) and every starting cursor. -/
theorem c1_new_byteOffset_multiple_of_four (lens : List Nat) (cursor : Nat)
    (p : Nat × Nat) (hp : p ∈ layoutPass1 lens cursor) : p.1 % 4 = 0 := by
  induction lens generalizing cursor with
  | nil => simp [layoutPass1] at hp
  | cons len rest ih =>
      rw [layoutPass1] at hp
      rcases List.mem_cons.mp hp with h | h
      · rw [h]; exact pad4_add_aligned cursor
      · exact ih _ h

/-- Witness for C1 at a concrete run: the second view of a two-view layout
starting at cursor 0 lands at offset 8, a multiple of 4. -/
theorem c1_new_byteOffset_multiple_of_four_witness :
    ((8, 3) ∈ layoutPass1 [5, 3] 0) ∧ (8 : Nat) % 4 = 0 :=
  ⟨by decide, c1_new_byteOffset_multiple_of_four [5, 3] 0 (8, 3) (by decide)⟩

/-- C9: the cursor reached by the copy pass equals the size computed by
the layout pass on the same data (both apply the identical padding
formula), so the size check always selects the info branch: the mismatch
severity is unreachable. -/
theorem c9_pass2_cursor_eq_pass1_size (lens : List Nat) (jsonBytes binBytes : List Nat) :
    pass2FinalCursor lens 0 = pass1FinalSize lens 0 ∧
    emitAfterCheck (pass1FinalSize lens 0) (pass2FinalCursor lens 0) jsonBytes binBytes
      = (Sev.info, some (buildGlb jsonBytes binBytes)) := by
  have key : ∀ (l : List Nat) (c : Nat), pass2FinalCursor l c = pass1FinalSize l c := by
    intro l
    induction l with
    | nil => intro c; rfl
    | cons len rest ih => intro c; rw [pass2FinalCursor, pass1FinalSize, ih]
  refine ⟨key lens 0, ?_⟩
  rw [key lens 0]
  simp [emitAfterCheck, assemblySizeCheckSeverity]

/-- C2 counterexample: at a mismatched pair (computed size 4, written
cursor 8) the pipeline still produces an output container, so the run does
not abort and a file is produced, contrary to the claim. -/
theorem c2_mismatch_still_emits_counterexample :
    (8 : Nat) ≠ 4 ∧ (emitAfterCheck 4 8 [] []).2.isSome = true ∧
    (emitAfterCheck 4 8 [] []).1 = Sev.error := by decide

/-- C2 as amended: when the written byte count differs from the computed
size, the mismatch is logged with severity error, but the run does not
abort and the output container is still assembled and emitted. -/
theorem c2_mismatch_logs_error_and_emits (s c : Nat) (jsonBytes binBytes : List Nat)
    (h : c ≠ s) :
    (emitAfterCheck s c jsonBytes binBytes).1 = Sev.error ∧
    (emitAfterCheck s c jsonBytes binBytes).2 = some (buildGlb jsonBytes binBytes) := by
  simp [emitAfterCheck, assemblySizeCheckSeverity, h]

/-- Witness for the amended C2 at the concrete mismatch 2 against 1. -/
theorem c2_mismatch_logs_error_and_emits_witness :
    (2 : Nat) ≠ 1 ∧ ((emitAfterCheck 1 2 [] []).1 = Sev.error ∧
      (emitAfterCheck 1 2 [] []).2 = some (buildGlb [] [])) :=
  ⟨by decide, c2_mismatch_logs_error_and_emits 1 2 [] [] (by decide)⟩

/-- C3: for a texture whose manifest mime type was image/png, when the
fresh encoding is strictly larger than the original bytes, the fresh
encoding is discarded, the original bytes are what pass 1 carries for the
view of that image, and the report entry is marked unmodified. -/
theorem c3_size_regression_guard (orig newBuf oldBin : List Nat) (bv : BufferView)
    (h : newBuf.length > orig.length) :
    processOneTexture orig true (some newBuf)
        = (some orig, ⟨orig.length, orig.length, false⟩) ∧
    viewData oldBin bv true (some orig) = orig := by
  refine ⟨?_, rfl⟩
  simp [processOneTexture, h]

/-- Witness for C3: a one-byte PNG recompressed to two bytes is kept. -/
theorem c3_size_regression_guard_witness :
    ([9, 9] : List Nat).length > ([7] : List Nat).length ∧
    (processOneTexture [7] true (some [9, 9]) = (some [7], ⟨1, 1, false⟩) ∧
      viewData [7] ⟨0, 1⟩ true (some [7]) = [7]) :=
  ⟨by decide, c3_size_regression_guard [7] [9, 9] [7] ⟨0, 1⟩ (by decide)⟩

/-- C5: the gamma-correction step leaves the alpha byte of every pixel
unchanged, and leaves every byte of a non-diffuse texture unchanged, for
every lookup table (hence for either configured direction). -/
theorem c5_gamma_touches_only_diffuse_rgb (isDiffuse : Bool) (lut : Nat → Nat)
    (pixels : List Pixel) :
    (gammaCorrectStep isDiffuse lut pixels).map Pixel.a = pixels.map Pixel.a ∧
    (isDiffuse = false → gammaCorrectStep isDiffuse lut pixels = pixels) := by
  cases isDiffuse <;> simp [gammaCorrectStep]

/-- Witness for C5 on a concrete non-diffuse two-pixel buffer with the
successor function standing in for a table. -/
theorem c5_gamma_touches_only_diffuse_rgb_witness :
    (gammaCorrectStep false Nat.succ [⟨1, 2, 3, 4⟩]).map Pixel.a
        = ([⟨1, 2, 3, 4⟩] : List Pixel).map Pixel.a ∧
    gammaCorrectStep false Nat.succ [⟨1, 2, 3, 4⟩] = [⟨1, 2, 3, 4⟩] :=
  ⟨(c5_gamma_touches_only_diffuse_rgb false Nat.succ [⟨1, 2, 3, 4⟩]).1,
   (c5_gamma_touches_only_diffuse_rgb false Nat.succ [⟨1, 2, 3, 4⟩]).2 rfl⟩

/-- C10: in the exporter-based variant, when no diffuse map is collected
from any material, the output bytes are the input file bytes themselves. -/
theorem c10_no_diffuse_returns_input (fileBuffer exported : List Nat)
    (materials : List ExpMaterial)
    (hnone : collectDiffuseMaps materials = []) :
    exporterOutput fileBuffer materials exported = fileBuffer := by
  simp [exporterOutput, hnone]

/-- Witness for C10: one capable material with an empty map slot and one
incapable material with a filled slot collect nothing, so the input passes
through. -/
theorem c10_no_diffuse_returns_input_witness :
    collectDiffuseMaps [⟨true, Option.none⟩, ⟨false, some 3⟩] = [] ∧
    exporterOutput [9, 9] [⟨true, Option.none⟩, ⟨false, some 3⟩] [0] = [9, 9] :=
  ⟨by decide, c10_no_diffuse_returns_input [9, 9] [0]
    [⟨true, Option.none⟩, ⟨false, some 3⟩] (by decide)⟩

theorem decodeU32le_u32le (n : Nat) : decodeU32le (u32le n) = n % 4294967296 := by
  simp [u32le, decodeU32le]
  omega

theorem buildGlb_header_total_field (j b : List Nat) :
    ((buildGlb j b).drop 8).take 4 = u32le (glbTotalLength j b) := by
  simp [buildGlb, u32le, List.cons_append, List.nil_append]

/-- C6: the emitted container has byte length exactly
12 + 8 + paddedJsonLength + 8 + paddedBinLength; the little-endian total
length field at bytes 8 to 11 of the header decodes to the same value
whenever it fits a 32-bit write; and both padded chunk lengths are 4-byte
aligned. -/
theorem c6_container_length_and_header (j b : List Nat)
    (h : glbTotalLength j b < 4294967296) :
    (buildGlb j b).length
        = 12 + (8 + (j.length + pad4 j.length)) + (8 + (b.length + pad4 b.length)) ∧
    decodeU32le (((buildGlb j b).drop 8).take 4)
        = 12 + (8 + (j.length + pad4 j.length)) + (8 + (b.length + pad4 b.length)) ∧
    (j.length + pad4 j.length) % 4 = 0 ∧
    (b.length + pad4 b.length) % 4 = 0 := by
  have htot : glbTotalLength j b
      = 12 + (8 + (j.length + pad4 j.length)) + (8 + (b.length + pad4 b.length)) := rfl
  refine ⟨?_, ?_, ?_, ?_⟩
  · rw [← htot]
    simp [buildGlb, u32le, glbTotalLength]
    omega
  · rw [buildGlb_header_total_field, decodeU32le_u32le, Nat.mod_eq_of_lt h, htot]
  · unfold pad4; omega
  · unfold pad4; omega

/-- Witness for C6 on the empty JSON and BIN payloads: a 28-byte
container whose header field decodes to 28. -/
theorem c6_container_length_and_header_witness :
    glbTotalLength [] [] < 4294967296 ∧
    ((buildGlb ([] : List Nat) []).length = 12 + (8 + (0 + pad4 0)) + (8 + (0 + pad4 0)) ∧
      decodeU32le (((buildGlb ([] : List Nat) []).drop 8).take 4)
        = 12 + (8 + (0 + pad4 0)) + (8 + (0 + pad4 0)) ∧
      (0 + pad4 0) % 4 = 0 ∧ (0 + pad4 0) % 4 = 0) :=
  ⟨by decide, by simpa using c6_container_length_and_header [] [] (by decide)⟩

/-- C7: both gamma byte maps (linearize table entries and delinearize
values) are monotonically non-decreasing in the input byte, and both send
0 to 0 and 255 to 255. -/
theorem c7_gamma_tables_monotone_endpoints :
    (∀ i j : Nat, i ≤ j → srgbToLinearTable i ≤ srgbToLinearTable j) ∧
    (∀ i j : Nat, i ≤ j → linearToSrgbByte i ≤ linearToSrgbByte j) ∧
    srgbToLinearTable 0 = 0 ∧ srgbToLinearTable 255 = 255 ∧
    linearToSrgbByte 0 = 0 ∧ linearToSrgbByte 255 = 255 := by
  have hmono : ∀ e : ℝ, 0 ≤ e → ∀ i j : Nat, i ≤ j →
      ((i : ℝ) / 255) ^ e * 255 ≤ ((j : ℝ) / 255) ^ e * 255 := by
    intro e he i j hij
    have hc : (i : ℝ) ≤ (j : ℝ) := by exact_mod_cast hij
    have h1 : ((i : ℝ) / 255) ≤ ((j : ℝ) / 255) := by gcongr
    have h0 : (0 : ℝ) ≤ (i : ℝ) / 255 := by positivity
    have h2 := Real.rpow_le_rpow h0 h1 he
    nlinarith
  refine ⟨?_, ?_, ?_, ?_, ?_, ?_⟩
  · intro i j hij
    exact Int.floor_le_floor (hmono 2.2 (by norm_num) i j hij)
  · intro i j hij
    rw [linearToSrgbByte, linearToSrgbByte, round_eq, round_eq]
    exact Int.floor_le_floor (by linarith [hmono (1 / 2.2) (by norm_num) i j hij])
  · have h : (((0 : Nat) : ℝ) / 255) = 0 := by norm_num
    rw [srgbToLinearTable, h, Real.zero_rpow (by norm_num), zero_mul, Int.floor_zero]
  · have h : (((255 : Nat) : ℝ) / 255) = 1 := by norm_num
    rw [srgbToLinearTable, h, Real.one_rpow, one_mul]
    norm_num
  · have h : (((0 : Nat) : ℝ) / 255) = 0 := by norm_num
    rw [linearToSrgbByte, h, Real.zero_rpow (by norm_num), zero_mul, round_zero]
  · have h : (((255 : Nat) : ℝ) / 255) = 1 := by norm_num
    rw [linearToSrgbByte, h, Real.one_rpow, one_mul]
    norm_num

/-- Witness for C7: monotonicity of both tables applied at the concrete
pair 3 and 7. -/
theorem c7_gamma_tables_monotone_endpoints_witness :
    (3 : Nat) ≤ 7 ∧ srgbToLinearTable 3 ≤ srgbToLinearTable 7 ∧
    linearToSrgbByte 3 ≤ linearToSrgbByte 7 :=
  ⟨by decide, c7_gamma_tables_monotone_endpoints.1 3 7 (by decide),
   c7_gamma_tables_monotone_endpoints.2.1 3 7 (by decide)⟩

/-- C8: for either optimization level above the lossless default, a
texture whose larger dimension exceeds the 1024px threshold has both
dimensions scaled by 1024 / max(width, height) with each result floored
and clamped to at least 1 pixel, while a texture at or below the threshold
keeps its dimensions. -/
theorem c8_resize_threshold (level : OptimizationLevel) (w h : Nat)
    (hlevel : level ≠ OptimizationLevel.none) :
    (1024 < max w h →
      resizeDims level w h =
        (max 1 (⌊((w : ℚ) * 1024) / (max w h : ℚ)⌋.toNat),
         max 1 (⌊((h : ℚ) * 1024) / (max w h : ℚ)⌋.toNat))) ∧
    (max w h ≤ 1024 → resizeDims level w h = (w, h)) := by
  cases level with
  | none => exact absurd rfl hlevel
  | balanced =>
      constructor
      · intro hgt
        simp only [resizeDims, maxDimTarget, if_pos hgt]
        push_cast
        rw [mul_div_assoc, mul_div_assoc]
      · intro hle
        simp only [resizeDims, maxDimTarget, if_neg (by omega : ¬ max w h > 1024)]
  | aggressive =>
      constructor
      · intro hgt
        simp only [resizeDims, maxDimTarget, if_pos hgt]
        push_cast
        rw [mul_div_assoc, mul_div_assoc]
      · intro hle
        simp only [resizeDims, maxDimTarget, if_neg (by omega : ¬ max w h > 1024)]

/-- Witness for C8: a 2048 by 1024 texture at the balanced level is scaled
by 1024 / 2048. -/
theorem c8_resize_threshold_witness :
    OptimizationLevel.balanced ≠ OptimizationLevel.none ∧ 1024 < max 2048 1024 ∧
    resizeDims OptimizationLevel.balanced 2048 1024 =
      (max 1 (⌊((2048 : ℚ) * 1024) / (max 2048 1024 : ℚ)⌋.toNat),
       max 1 (⌊((1024 : ℚ) * 1024) / (max 2048 1024 : ℚ)⌋.toNat)) :=
  ⟨by decide, by decide,
   (c8_resize_threshold OptimizationLevel.balanced 2048 1024 (by decide)).1 (by decide)⟩


theorem le_pass1FinalSize (lens : List Nat) (c : Nat) : c ≤ pass1FinalSize lens c := by
  induction lens generalizing c with
  | nil => exact le_refl c
  | cons len rest ih => exact le_trans (by omega) (ih (c + pad4 c + len))

theorem writeBytes_length (buf : List Nat) (off : Nat) (d : List Nat)
    (h : off + d.length ≤ buf.length) : (writeBytes buf off d).length = buf.length := by
  simp [writeBytes]
  omega

theorem writeBytes_take (buf : List Nat) (off k : Nat) (d : List Nat)
    (hk : k ≤ off) (hoff : off ≤ buf.length) :
    (writeBytes buf off d).take k = buf.take k := by
  rw [writeBytes, List.append_assoc,
      List.take_append_of_le_length (by simp; omega), List.take_take,
      min_eq_left hk]

theorem drop_eq_of_append (l₁ l₂ : List Nat) (n : Nat) (h : n = l₁.length) :
    (l₁ ++ l₂).drop n = l₂ := by
  subst h
  exact List.drop_left l₁ l₂

theorem writeBytes_slice (buf : List Nat) (off : Nat) (d : List Nat)
    (h : off + d.length ≤ buf.length) :
    listSlice (writeBytes buf off d) off d.length = d := by
  have h1 : (buf.take off).length = off := by simp; omega
  rw [writeBytes, listSlice, List.append_assoc,
      drop_eq_of_append _ _ off h1.symm]
  exact List.take_left d (buf.drop (off + d.length))

theorem assemblePass2_take (ds : List (List Nat)) (cursor : Nat) (buf : List Nat) (k : Nat)
    (hk : k ≤ cursor) (hbound : pass1FinalSize (ds.map List.length) cursor ≤ buf.length) :
    (assemblePass2 ds cursor buf).take k = buf.take k := by
  induction ds generalizing cursor buf with
  | nil => rfl
  | cons d rest ih =>
      simp only [List.map_cons, pass1FinalSize] at hbound
      have hoff : cursor + pad4 cursor + d.length ≤ buf.length :=
        le_trans (le_pass1FinalSize (rest.map List.length) _) hbound
      rw [assemblePass2,
          ih (cursor + pad4 cursor + d.length) (writeBytes buf (cursor + pad4 cursor) d)
            (by omega) (by rw [writeBytes_length _ _ _ hoff]; exact hbound)]
      exact writeBytes_take buf _ k d (by omega) (by omega)

theorem assemblePass2_slice (ds : List (List Nat)) (cursor : Nat) (buf : List Nat)
    (p : Nat × List Nat)
    (hbound : pass1FinalSize (ds.map List.length) cursor ≤ buf.length)
    (hp : p ∈ planWithData ds cursor) :
    listSlice (assemblePass2 ds cursor buf) p.1 p.2.length = p.2 := by
  induction ds generalizing cursor buf with
  | nil => simp [planWithData] at hp
  | cons d rest ih =>
      simp only [List.map_cons, pass1FinalSize] at hbound
      have hoff : cursor + pad4 cursor + d.length ≤ buf.length :=
        le_trans (le_pass1FinalSize (rest.map List.length) _) hbound
      have hwlen : (writeBytes buf (cursor + pad4 cursor) d).length = buf.length :=
        writeBytes_length _ _ _ hoff
      rw [planWithData] at hp
      rcases List.mem_cons.mp hp with h | h
      · subst h
        rw [assemblePass2]
        have htake := assemblePass2_take rest (cursor + pad4 cursor + d.length)
          (writeBytes buf (cursor + pad4 cursor) d) (cursor + pad4 cursor + d.length)
          (le_refl _) (by rw [hwlen]; exact hbound)
        have hview : ∀ l₁ l₂ : List Nat,
            l₁.take (cursor + pad4 cursor + d.length) = l₂.take (cursor + pad4 cursor + d.length) →
            listSlice l₁ (cursor + pad4 cursor) d.length
              = listSlice l₂ (cursor + pad4 cursor) d.length := by
          intro l₁ l₂ hl
          have e : ∀ l : List Nat,
              listSlice l (cursor + pad4 cursor) d.length
                = (l.take (cursor + pad4 cursor + d.length)).drop (cursor + pad4 cursor) := by
            intro l
            rw [listSlice, List.drop_take, Nat.add_sub_cancel_left]
          rw [e l₁, e l₂, hl]
        rw [hview _ _ htake]
        exact writeBytes_slice buf (cursor + pad4 cursor) d hoff
      · rw [assemblePass2]
        exact ih (cursor + pad4 cursor + d.length) (writeBytes buf (cursor + pad4 cursor) d)
          (by rw [hwlen]; exact hbound) h

/-- C4: a texture whose transcode call fails stores no replacement buffer
and reports an unmodified entry of the original size; pass 1 then selects
the original byte range of its view; every planned view, that one
included, has its bytes copied verbatim into the assembled binary payload;
and the run still emits an output container. -/
theorem c4_failed_texture_fallback (orig oldBin : List Nat) (bv : BufferView)
    (mimeIsPng : Bool) (ts : List TextureInput) (ds : List (List Nat))
    (p : Nat × List Nat) (s c : Nat) (jsonBytes binBytes : List Nat)
    (hp : p ∈ planWithData ds 0) :
    processOneTexture orig mimeIsPng none = (none, ⟨orig.length, orig.length, false⟩) ∧
    viewData oldBin bv true none = listSlice oldBin bv.byteOffset bv.byteLength ∧
    (runTextures ts).length = ts.length ∧
    listSlice (assemblePass2 ds 0 (List.replicate (pass1FinalSize (ds.map List.length) 0) 0))
        p.1 p.2.length = p.2 ∧
    (emitAfterCheck s c jsonBytes binBytes).2.isSome = true := by
  refine ⟨rfl, rfl, by simp [runTextures], ?_, rfl⟩
  exact assemblePass2_slice ds 0 _ p (by simp) hp

/-- Witness for C4 at one failed texture and a one-view plan. -/
theorem c4_failed_texture_fallback_witness :
    ((0, [7, 7]) ∈ planWithData [[7, 7]] 0) ∧
    (processOneTexture [5] false none = (none, ⟨1, 1, false⟩) ∧
      viewData [5] ⟨0, 1⟩ true none = listSlice [5] 0 1 ∧
      (runTextures [⟨[5], false, none⟩]).length
          = ([⟨[5], false, none⟩] : List TextureInput).length ∧
      listSlice (assemblePass2 [[7, 7]] 0
          (List.replicate (pass1FinalSize (([[7, 7]] : List (List Nat)).map List.length) 0) 0))
        (0, ([7, 7] : List Nat)).1 (0, ([7, 7] : List Nat)).2.length
          = (0, ([7, 7] : List Nat)).2 ∧
      (emitAfterCheck 0 0 [] []).2.isSome = true) :=
  ⟨by decide, c4_failed_texture_fallback [5] [5] ⟨0, 1⟩ false
    [⟨[5], false, none⟩] [[7, 7]] (0, [7, 7]) 0 0 [] [] (by decide)⟩

end RGBLinear
